import Mathlib

/-
Verification of src/lib/parsePackage.js (pleated-slacks).

The file under src/lib/parsePackage.js contains two reference variants of the
same module, separated by a document marker:
  - variant A: lines 1-205 (request + bluebird, try/catch wrapping);
  - variant B: lines 206-380 (request-promise, Promise.all batch).

Shallow-embedding conventions used below:
  - JS objects with string keys are modelled as insertion-ordered association
    lists; property assignment (o[k] = v) updates the value in place when the
    key exists and appends otherwise.  The ECMAScript placement of
    array-index-shaped keys ahead of other keys is not modelled: no
    array-index-shaped package name or keyword appears in any claim.
  - JS errors are modelled by their message strings; stringification of an
    Error inside a template literal is modelled as the message itself.
  - Asynchronous fetches are modelled by their settled results (an Except
    value for an already-settled promise); Promise.all over a list of settled
    promises is the left-to-right first-error sequence promiseAll below.
  - File reading and JSON parsing of the manifest, and the cheerio DOM
    selection, are cut at the library boundary: the manifest arrives as an
    already-parsed PackageJson, the catalog JSON as its results list, and the
    scraper receives the text of the selected paragraph (none when the node is
    absent; an absent cheerio selection stringifies to the empty string).
-/

namespace PleatedSlacks

/-- Whitespace test matching the JavaScript regex class backslash-s on the
ASCII range: space, tab, newline, carriage return, vertical tab, form feed. -/
def isWS (c : Char) : Bool :=
  c == ' ' || c == '\t' || c == '\n' || c == '\r' || c == '\x0b' || c == '\x0c'

/-- Number of non-whitespace characters of a token. -/
def nonWSCount (l : List Char) : Nat :=
  (l.filter (fun c => !isWS c)).length

/-- Removal of the trailing whitespace run of a token. -/
def dropTrailingWS (l : List Char) : List Char :=
  (l.reverse.dropWhile isWS).reverse

/-- Model of the JavaScript expression
el.replace(/\s*(\S.*\S)\s*/g, s1-backreference) on a token without a newline
(the dot in the pattern does not match a newline, so multi-line tokens behave
differently and are outside this model).  On a newline-free token the pattern
matches exactly when the token has two or more non-whitespace characters; the
greedy match then spans the whole token and the capture group runs from the
first to the last non-whitespace character, so the replacement strips the
leading and the trailing whitespace run and keeps the interior verbatim.
Tokens with fewer than two non-whitespace characters admit no match and are
returned unchanged. -/
def jsTrimToken (l : List Char) : List Char :=
  if 2 ≤ nonWSCount l then dropTrailingWS (l.dropWhile isWS) else l

/-- Model of JavaScript String.prototype.split on the comma separator: the
empty string yields one empty token, and n commas yield n+1 tokens. -/
def splitCommaAux : List Char → List Char → List (List Char)
  | [], acc => [acc.reverse]
  | c :: rest, acc =>
    if c == ',' then acc.reverse :: splitCommaAux rest []
    else splitCommaAux rest (c :: acc)

/-- Comma split of a string, as a list of character lists. -/
def splitComma (s : String) : List (List Char) :=
  splitCommaAux s.toList []

/-- Parsed manifest (package.json) as it comes out of JSON.parse: each of the
two dependency sections is an insertion-ordered association list of package
name to version specifier when the key is present, and none when absent. -/
structure PackageJson where
  dependencies : Option (List (String × String))
  devDependencies : Option (List (String × String))

/-- Message of the TypeError raised by Object.keys on undefined. -/
def keysTypeErrorMsg : String :=
  "TypeError: Cannot convert undefined or null to object"

/-- Model of Object.keys applied to a possibly-missing manifest section:
the keys of the object in insertion order, or a thrown TypeError when the
property is undefined. -/
def jsObjectKeys (o : Option (List (String × String))) : Except String (List String) :=
  match o with
  | some l => .ok (l.map Prod.fst)
  | none => .error keysTypeErrorMsg

/-- Model of the JavaScript test o.hasOwnProperty(k) on an association-list
object. -/
def hasOwnProperty (o : List (String × α)) (k : String) : Bool :=
  o.any (fun p => p.1 == k)

/-- Model of the JavaScript property assignment o[k] = v on an
association-list object built from string keys: update in place when the key
is present, append otherwise. -/
def objInsert : List (String × α) → String → α → List (String × α)
  | [], k, v => [(k, v)]
  | p :: o, k, v => if p.1 == k then (k, v) :: o else p :: objInsert o k v

/-- Property read o[k] as an Option: the value of the first entry carrying
the key. -/
def lookupObj (o : List (String × α)) (k : String) : Option α :=
  (o.find? (fun p => p.1 == k)).map Prod.snd

/-- Model of Promise.all over a list of already-settled promises: the list of
resolved values, or the first rejection in index order. -/
def promiseAll : List (Except ε α) → Except ε (List α)
  | [] => .ok []
  | .error e :: _ => .error e
  | .ok v :: xs =>
    match promiseAll xs with
    | .error e => .error e
    | .ok vs => .ok (v :: vs)

/-- Fetches initiated by the orchestrator, in initiation order: the docker
catalog fetch and one npm page fetch per registry URL. -/
inductive FetchEvent where
  | dockers
  | npm (url : String)
deriving DecidableEq, Repr

namespace packageParser

/-- Embedding of packageParser.dependencies (identical in both variants,
lines 39-48 and 225-234): Object.keys(pj.dependencies) concatenated with
Object.keys(pj.devDependencies), evaluated left to right, where a missing
section makes Object.keys throw. -/
def dependencies (pj : PackageJson) : Except String (List String) := do
  let a ← jsObjectKeys pj.dependencies
  let b ← jsObjectKeys pj.devDependencies
  return a ++ b

/-- Embedding of packageParser.depURL (identical in both variants, lines
50-58 and 236-244): the fixed template URL of the package detail page. -/
def depURL (pkg : String) : String :=
  "https://www.npmjs.com/package/" ++ pkg

/-- Embedding of packageParser.parseDependencies (identical in both variants,
lines 76-89 and 258-271).  The cheerio selection of the first
p.list-of-links paragraph under the sidebar is modelled by its outcome: the
text of the paragraph when the node is present, none when it is absent; an
empty cheerio selection stringifies to the empty string.  The text is split
on commas and each token passes through the replace call modelled by
jsTrimToken. -/
def parseDependencies (node : Option String) : List String :=
  ((splitComma (node.getD "")).map jsTrimToken).map List.asString

/-- Embedding of packageParser.parseDockers (identical in both variants,
lines 91-124 and 273-306).  JSON.parse of the catalog body is cut at the
library boundary: the function receives the results sequence as a list of
(name, description) pairs and folds the JS property assignments
dockers[el.name] = el.description over an initially empty object. -/
def parseDockers (results : List (String × String)) : List (String × String) :=
  results.foldl (fun dockers el => objInsert dockers el.1 el.2) []

/-- Embedding of packageParser.matchDependencies of variant B (lines
320-380).  The two stub parameters model the settled results of
this.fetchDockers() and this.fetchNPM(url), exactly the methods the reference
test suite replaces.  The function reads the manifest, builds the registry
URLs, initiates the docker fetch and one npm fetch per URL (the returned
event list records the initiated fetches in order), joins on all of them with
Promise.all first-error semantics, flattens the keyword lists, and collects
into depList each keyword that is not yet a key of depList and is a key of
the docker catalog, returning Object.keys(depList). -/
def matchDependencies (pj : PackageJson)
    (fetchDockers : Except String (List (String × String)))
    (fetchNPM : String → Except String (List String)) :
    Except String (List String) × List FetchEvent :=
  match dependencies pj with
  | .error e => (.error e, [])
  | .ok packageJSON =>
    let packageURLs := packageJSON.map depURL
    let events := FetchEvent.dockers :: packageURLs.map FetchEvent.npm
    match fetchDockers, promiseAll (packageURLs.map fetchNPM) with
    | .error e, _ => (.error e, events)
    | .ok _, .error e => (.error e, events)
    | .ok dockerKeywords, .ok kwLists =>
      let depKeywords := kwLists.foldl (fun accum el => accum ++ el) []
      let depList := depKeywords.foldl
        (fun depList kw =>
          if !(hasOwnProperty depList kw) && hasOwnProperty dockerKeywords kw then
            objInsert depList kw true
          else depList)
        ([] : List (String × Bool))
      (.ok (depList.map Prod.fst), events)

/-- Error text ERR_URL_PARSE of variant A (line 9). -/
def ERR_URL_PARSE : String :=
  "Couldn\x27t load or parse data on this module from npmjs.com"

/-- Wrapping performed by the catch blocks of variant A: a new Error whose
message prepends ERR_URL_PARSE to the stringified inner error. -/
def wrapNpmErr (e : String) : String :=
  ERR_URL_PARSE ++ " " ++ e

/-- Message of the ReferenceError raised at line 190 of variant A: the
then-callback reads dockerPromises, a const declared inside the earlier
try block (line 174) and out of scope at the use site. -/
def dockerPromisesRefErrorMsg : String :=
  "ReferenceError: dockerPromises is not defined"

/-- Embedding of packageParser.fetchNPM of variant A (lines 60-74): the
underlying fetch-and-parse outcome, with a failure wrapped by the catch
block. -/
def fetchNPMofA (fetch : String → Except String (List String)) (u : String) :
    Except String (List String) :=
  match fetch u with
  | .ok v => .ok v
  | .error e => .error (wrapNpmErr e)

/-- Embedding of packageParser.fetchDockers of variant A (lines 126-141):
the underlying fetch-and-parse outcome, with a failure wrapped by the catch
block. -/
def fetchDockersOfA (fetch : Except String (List (String × String))) :
    Except String (List (String × String)) :=
  match fetch with
  | .ok v => .ok v
  | .error e => .error (wrapNpmErr e)

/-- Embedding of packageParser.matchDependencies of variant A (lines
143-205).  After the manifest read, the npm fetch promises are created, the
docker fetch is awaited inside a try block that wraps a failure, and the
promise chain under the second try is awaited: when Promise.all rejects the
catch wraps the rejection; when every fetch resolves, the second
then-callback throws the ReferenceError on dockerPromises (declared const in
the scope of the first try block and referenced outside it at line 190), the
chain rejects with it, and the catch wraps it.  No control path reaches a
resolved match result. -/
def matchDependenciesA (pj : PackageJson)
    (fetchDockers : Except String (List (String × String)))
    (fetchNPM : String → Except String (List String)) :
    Except String (List String) :=
  match dependencies pj with
  | .error e => .error e
  | .ok packageJSON =>
    let packageURLs := packageJSON.map depURL
    let depPromises := packageURLs.map (fetchNPMofA fetchNPM)
    match fetchDockersOfA fetchDockers with
    | .error e => .error (wrapNpmErr e)
    | .ok _ =>
      match promiseAll depPromises with
      | .error e => .error (wrapNpmErr e)
      | .ok _ => .error (wrapNpmErr dockerPromisesRefErrorMsg)

end packageParser

/-- Shape of a JavaScript value returned by matchDependencies: an array of
names or an object mapping names to booleans. -/
inductive JsValue where
  | arr (elems : List String)
  | obj (entries : List (String × Bool))
deriving DecidableEq, Repr

/-- Array test on a JsValue. -/
def JsValue.isArr : JsValue → Bool
  | .arr _ => true
  | .obj _ => false

/-- Embedding of the return expression of variant A at line 201:
Object.keys(depList), the keys of the accumulated match object. -/
def returnExprA (depList : List (String × Bool)) : JsValue :=
  .arr (depList.map Prod.fst)

/-- Embedding of the return expression of variant B at line 379:
Object.keys(depList), the keys of the accumulated match object. -/
def returnExprB (depList : List (String × Bool)) : JsValue :=
  .arr (depList.map Prod.fst)

/-- Success test on a settled promise outcome. -/
def isOkE : Except ε α → Bool
  | .ok _ => true
  | .error _ => false

/-- Spec-side deduplication: keep the first occurrence of each keyword,
skipping keywords already seen. -/
def firstOccur (seen : List String) : List String → List String
  | [] => []
  | k :: ks =>
    if seen.contains k then firstOccur seen ks
    else k :: firstOccur (k :: seen) ks

/-- Spec-side match result, following the words of the specification: the
keywords present in both the scraped-keyword union and the catalog name set,
deduplicated with the first occurrence of each keyword winning. -/
def specMatch (kws : List String) (catalogNames : List String) : List String :=
  firstOccur [] (kws.filter (fun k => catalogNames.contains k))

theorem lookupObj_nil {α : Type} (k : String) :
    lookupObj ([] : List (String × α)) k = none := rfl

theorem lookupObj_cons {α : Type} (p : String × α) (o : List (String × α))
    (k : String) :
    lookupObj (p :: o) k = if p.1 = k then some p.2 else lookupObj o k := by
  by_cases h : p.1 = k
  · simp [lookupObj, List.find?_cons_of_pos, h]
  · simp [lookupObj, List.find?_cons_of_neg, h]

theorem lookupObj_append {α : Type} (l1 l2 : List (String × α)) (k : String) :
    lookupObj (l1 ++ l2) k = (lookupObj l1 k).or (lookupObj l2 k) := by
  simp only [lookupObj, List.find?_append]
  cases List.find? (fun p => p.1 == k) l1 <;> simp

theorem lookupObj_objInsert {α : Type} (o : List (String × α)) (k : String)
    (v : α) (k2 : String) :
    lookupObj (objInsert o k v) k2 = if k2 = k then some v else lookupObj o k2 := by
  induction o with
  | nil =>
    simp only [objInsert, lookupObj_cons, lookupObj_nil]
    by_cases h : k2 = k
    · simp [h]
    · have h2 : ¬(k : String) = k2 := fun hh => h hh.symm
      simp [h, h2]
  | cons p o ih =>
    obtain ⟨a, b⟩ := p
    by_cases hpk : a = k
    · subst hpk
      simp only [objInsert, beq_self_eq_true, if_true, lookupObj_cons]
      split_ifs <;> first | rfl | simp_all
    · have hb : (a == k) = false := by simp [hpk]
      simp only [objInsert, hb, Bool.false_eq_true, if_false, lookupObj_cons, ih]
      split_ifs <;> first | rfl | simp_all

theorem mem_keys_objInsert {α : Type} (o : List (String × α)) (k : String)
    (v : α) (n : String) :
    n ∈ (objInsert o k v).map Prod.fst ↔ n ∈ o.map Prod.fst ∨ n = k := by
  induction o with
  | nil => simp [objInsert]
  | cons p o ih =>
    obtain ⟨a, b⟩ := p
    by_cases hpk : a = k
    · subst hpk
      simp only [objInsert, beq_self_eq_true, if_true, List.map_cons,
        List.mem_cons]
      tauto
    · have hb : (a == k) = false := by simp [hpk]
      simp only [objInsert, hb, Bool.false_eq_true, if_false, List.map_cons,
        List.mem_cons, ih]
      tauto

theorem lookupObj_foldl_objInsert (rs : List (String × String)) :
    ∀ (o : List (String × String)) (k : String),
      lookupObj (rs.foldl (fun d el => objInsert d el.1 el.2) o) k =
        (lookupObj rs.reverse k).or (lookupObj o k) := by
  induction rs with
  | nil => intro o k; simp [lookupObj]
  | cons p rs ih =>
    intro o k
    simp only [List.foldl_cons, List.reverse_cons]
    rw [ih, lookupObj_append, Option.or_assoc]
    congr 1
    rw [lookupObj_objInsert, lookupObj_cons, lookupObj_nil]
    by_cases h : k = p.1
    · simp [h]
    · have h2 : ¬p.1 = k := fun hh => h hh.symm
      simp [h, h2]

theorem mem_keys_foldl_objInsert (rs : List (String × String)) :
    ∀ (o : List (String × String)) (n : String),
      n ∈ ((rs.foldl (fun d el => objInsert d el.1 el.2) o).map Prod.fst) ↔
        n ∈ o.map Prod.fst ∨ n ∈ rs.map Prod.fst := by
  induction rs with
  | nil => intro o n; simp
  | cons p rs ih =>
    intro o n
    simp only [List.foldl_cons]
    rw [ih, mem_keys_objInsert]
    simp only [List.map_cons, List.mem_cons]
    tauto

/-- Claim C8: parseDockers never raises an error on duplicate names; looking
up any name in the returned object yields the description of the last catalog
entry carrying that name (the first match in the reversed results sequence,
that is last-write-wins), and the keys of the returned object are exactly the
name fields occurring in the results sequence. -/
theorem parseDockers_last_write_wins (rs : List (String × String)) :
    (∀ k, lookupObj (packageParser.parseDockers rs) k = lookupObj rs.reverse k) ∧
      (∀ n, n ∈ (packageParser.parseDockers rs).map Prod.fst ↔
        n ∈ rs.map Prod.fst) := by
  constructor
  · intro k
    have h := lookupObj_foldl_objInsert rs [] k
    simpa [packageParser.parseDockers, lookupObj_nil, Option.or_none] using h
  · intro n
    have h := mem_keys_foldl_objInsert rs [] n
    simpa [packageParser.parseDockers] using h

/-- Claim C4: for every manifest containing both a dependencies mapping and a
devDependencies mapping, dependencies returns exactly the keys of the
dependencies mapping followed by the keys of the devDependencies mapping, in
parser insertion order, with no de-duplication and no reordering. -/
theorem dependencies_concat_keys (d dd : List (String × String)) :
    packageParser.dependencies ⟨some d, some dd⟩ =
      .ok (d.map Prod.fst ++ dd.map Prod.fst) := rfl

/-- Claim C6: for every manifest that parses but lacks the devDependencies
key, matchDependencies (variant B) fails with the TypeError thrown by
Object.keys inside the dependencies stage, and the fetch-event list is empty:
no network fetch is initiated. -/
theorem matchDependencies_missing_devDeps_fails_fast
    (d : List (String × String)) (fd : Except String (List (String × String)))
    (fn : String → Except String (List String)) :
    packageParser.matchDependencies ⟨some d, none⟩ fd fn =
      (.error keysTypeErrorMsg, []) := rfl

/-- Claim C9: when the expected sidebar paragraph node is absent, the scraper
returns an empty sequence or a sequence containing one empty string, and
raises no error (the function is total). -/
theorem parseDependencies_absent_node :
    packageParser.parseDependencies none = [] ∨
      packageParser.parseDependencies none = [""] :=
  Or.inr rfl

/-- Claim C3, counterexample: at a concrete match object the return
expressions of the two variants produce the same value, and that value is an
array; hence the claim that one variant returns an array while the other
returns a boolean-valued mapping is false of the code (only the doc comment
of variant B describes a mapping). -/
theorem returnShape_agree_counterexample :
    returnExprA [("mongo", true)] = returnExprB [("mongo", true)] ∧
      JsValue.isArr (returnExprB [("mongo", true)]) = true :=
  ⟨rfl, rfl⟩

/-- Claim C3, amended: the two variants agree on the output shape of
matchDependencies: both return expressions are Object.keys(depList), an
array of matched names, for every match object. -/
theorem returnShape_agree (depList : List (String × Bool)) :
    returnExprA depList = returnExprB depList ∧
      JsValue.isArr (returnExprA depList) = true :=
  ⟨rfl, rfl⟩

/-- Claim C10: depURL is injective, and the package name is recoverable as
the suffix of the URL after the 30-character fixed part of the package-detail
path. -/
theorem depURL_injective_recoverable (a b p : String)
    (h : packageParser.depURL a = packageParser.depURL b) :
    a = b ∧ (packageParser.depURL p).data.drop 30 = p.data := by
  constructor
  · have h2 : ("https://www.npmjs.com/package/" ++ a).data =
        ("https://www.npmjs.com/package/" ++ b).data := congrArg String.data h
    simp only [String.data_append] at h2
    exact String.ext (List.append_cancel_left h2)
  · show ("https://www.npmjs.com/package/" ++ p).data.drop 30 = p.data
    simp only [String.data_append]
    exact List.drop_left' (by decide)

/-- Witness for claim C10 at a concrete input. -/
theorem depURL_injective_recoverable_witness :
    ("x" : String) = "x" ∧
      (packageParser.depURL "express").data.drop 30 = "express".data :=
  depURL_injective_recoverable "x" "x" "express" rfl

/-- Claim C5, counterexample: on the comma-separated text built from the
tokens space-a and bb, the scraper does not trim the first token: the trim
regex needs two non-whitespace anchor characters, so a token with a single
non-whitespace character is returned unchanged, contradicting the claim that
every resulting token is trimmed. -/
theorem parseDependencies_short_token_counterexample :
    packageParser.parseDependencies (some " a,bb") = [" a", "bb"] ∧
      packageParser.parseDependencies (some " a,bb") ≠ ["a", "bb"] := by
  exact ⟨rfl, by decide⟩

/-- Claim C7, counterexample: in variant B a failing registry fetch makes
matchDependencies fail with exactly the underlying error, not with a wrapped
error carrying added context: the surfaced message equals the stub error and
differs from its wrapped form. -/
theorem matchDependencies_unwrapped_error_counterexample :
    (packageParser.matchDependencies ⟨some [("a", "1")], some []⟩ (.ok [])
        (fun _ => .error "ECONNREFUSED")).fst = .error "ECONNREFUSED" ∧
      "ECONNREFUSED" ≠ packageParser.wrapNpmErr "ECONNREFUSED" := by
  exact ⟨rfl, by decide⟩

theorem contains_append {α : Type} [BEq α] (l1 l2 : List α) (x : α) :
    (l1 ++ l2).contains x = (l1.contains x || l2.contains x) := by
  induction l1 with
  | nil => simp
  | cons a l1 ih => simp [List.contains_cons, ih, Bool.or_assoc]

theorem hasOwn_eq_contains {α : Type} (o : List (String × α)) (k : String) :
    hasOwnProperty o k = (o.map Prod.fst).contains k := by
  induction o with
  | nil => rfl
  | cons p o ih =>
    have hcomm : (p.1 == k) = (k == p.1) := by
      by_cases h : p.1 = k
      · simp [h]
      · have h2 : ¬(k : String) = p.1 := fun hh => h hh.symm
        simp [h, h2]
    calc hasOwnProperty (p :: o) k = ((p.1 == k) || hasOwnProperty o k) := rfl
    _ = ((k == p.1) || (o.map Prod.fst).contains k) := by rw [ih, hcomm]
    _ = ((p :: o).map Prod.fst).contains k := by
        rw [List.map_cons, List.contains_cons]

theorem firstOccur_congr (l : List String) :
    ∀ s1 s2 : List String, (∀ x, s1.contains x = s2.contains x) →
      firstOccur s1 l = firstOccur s2 l := by
  induction l with
  | nil => intro s1 s2 h; rfl
  | cons k ks ih =>
    intro s1 s2 h
    simp only [firstOccur, h k]
    cases hk : s2.contains k with
    | true => simp only [if_true]; exact ih s1 s2 h
    | false =>
      simp only [Bool.false_eq_true, if_false]
      refine congrArg _ (ih (k :: s1) (k :: s2) fun x => ?_)
      simp only [List.contains_cons, h x]

theorem objInsert_eq_append {α : Type} (o : List (String × α)) (k : String)
    (v : α) (h : hasOwnProperty o k = false) :
    objInsert o k v = o ++ [(k, v)] := by
  induction o with
  | nil => rfl
  | cons p o ih =>
    simp only [hasOwnProperty, List.any_cons, Bool.or_eq_false_iff] at h
    simp only [objInsert, h.1, Bool.false_eq_true, if_false, List.cons_append]
    exact congrArg _ (ih h.2)

theorem depList_keys (cat : List (String × String)) (kws : List String) :
    ∀ dl : List (String × Bool),
      ((kws.foldl (fun depList kw =>
          if !(hasOwnProperty depList kw) && hasOwnProperty cat kw then
            objInsert depList kw true
          else depList) dl).map Prod.fst) =
        dl.map Prod.fst ++
          firstOccur (dl.map Prod.fst)
            (kws.filter (fun k => (cat.map Prod.fst).contains k)) := by
  induction kws with
  | nil => intro dl; simp [firstOccur]
  | cons kw kws ih =>
    intro dl
    simp only [List.foldl_cons, List.filter_cons]
    cases hdl : hasOwnProperty dl kw with
    | true =>
      have hdl2 : (dl.map Prod.fst).contains kw = true := by
        rw [← hasOwn_eq_contains]; exact hdl
      simp only [hdl, Bool.not_true, Bool.false_and, Bool.false_eq_true,
        if_false]
      rw [ih dl]
      cases hcat : (cat.map Prod.fst).contains kw with
      | true => simp only [hcat, if_true, firstOccur, hdl2]
      | false => simp only [hcat, Bool.false_eq_true, if_false]
    | false =>
      have hdl2 : (dl.map Prod.fst).contains kw = false := by
        rw [← hasOwn_eq_contains]; exact hdl
      cases hcat : hasOwnProperty cat kw with
      | false =>
        have hcat2 : (cat.map Prod.fst).contains kw = false := by
          rw [← hasOwn_eq_contains]; exact hcat
        simp only [hdl, hcat, Bool.not_false, Bool.true_and, Bool.false_eq_true,
          if_false]
        rw [ih dl]
        simp only [hcat2, Bool.false_eq_true, if_false]
      | true =>
        have hcat2 : (cat.map Prod.fst).contains kw = true := by
          rw [← hasOwn_eq_contains]; exact hcat
        simp only [hdl, hcat, Bool.not_false, Bool.true_and, if_true]
        rw [objInsert_eq_append dl kw true hdl, ih (dl ++ [(kw, true)])]
        simp only [List.map_append, List.map_cons, List.map_nil]
        rw [firstOccur_congr _ (dl.map Prod.fst ++ [kw]) (kw :: dl.map Prod.fst)
          (fun x => by simp [contains_append, List.contains_cons, Bool.or_comm])]
        simp only [hcat2, if_true, firstOccur, hdl2, Bool.false_eq_true,
          if_false]
        rw [List.append_assoc, List.singleton_append]

theorem foldl_append_eq_flatten {α : Type} (l : List (List α)) :
    ∀ acc : List α, l.foldl (fun a e => a ++ e) acc = acc ++ l.flatten := by
  induction l with
  | nil => intro acc; simp
  | cons x l ih =>
    intro acc
    simp only [List.foldl_cons, List.flatten_cons]
    rw [ih, List.append_assoc]

theorem promiseAll_map_ok {ε α β : Type} (f : β → α) (l : List β) :
    promiseAll (l.map (fun u => (Except.ok (f u) : Except ε α))) =
      .ok (l.map f) := by
  induction l with
  | nil => rfl
  | cons x xs ih => simp [promiseAll, ih]

/-- Claim C1: end to end, with a stubbed dependency list (a manifest whose
read yields the given names), a stubbed catalog mapping, and stubbed
per-dependency keyword lists, matchDependencies (variant B) returns exactly
the keywords present in both the union of all scraped keyword sequences and
the catalog name set, deduplicated with the first occurrence of each keyword
winning (specMatch is that spec-side description). -/
theorem matchDependencies_end_to_end (pj : PackageJson) (names : List String)
    (cat : List (String × String)) (g : String → List String)
    (hd : packageParser.dependencies pj = .ok names) :
    (packageParser.matchDependencies pj (.ok cat)
        (fun u => .ok (g u))).fst =
      .ok (specMatch
        ((names.map (fun n => g (packageParser.depURL n))).flatten)
        (cat.map Prod.fst)) := by
  unfold packageParser.matchDependencies
  rw [hd]
  have hall := promiseAll_map_ok (ε := String) g
    (names.map packageParser.depURL)
  simp only [hall]
  rw [foldl_append_eq_flatten, List.nil_append, depList_keys cat _ []]
  simp [specMatch, List.map_map, Function.comp]
  rfl

/-- Witness for claim C1 at a concrete input: the manifest declares mongoose
as a dependency and redis as a development dependency, the stubbed catalog
knows redis and mysql, and every registry page scrapes to the keywords
redis, orm, redis; the match result is the deduplicated intersection. -/
theorem matchDependencies_end_to_end_witness :
    (packageParser.matchDependencies
        ⟨some [("mongoose", "1")], some [("redis", "2")]⟩
        (.ok [("redis", "r"), ("mysql", "m")])
        (fun _ => .ok ["redis", "orm", "redis"])).fst = .ok ["redis"] :=
  matchDependencies_end_to_end ⟨some [("mongoose", "1")], some [("redis", "2")]⟩
    ["mongoose", "redis"] [("redis", "r"), ("mysql", "m")]
    (fun _ => ["redis", "orm", "redis"]) rfl

theorem promiseAll_error_of_mem {ε α : Type} (l : List (Except ε α))
    (h : ∃ x ∈ l, isOkE x = false) :
    ∃ e, promiseAll l = .error e ∧ Except.error e ∈ l := by
  induction l with
  | nil => simp at h
  | cons x xs ih =>
    cases x with
    | error e => exact ⟨e, rfl, List.mem_cons_self _ _⟩
    | ok v =>
      have hxs : ∃ y ∈ xs, isOkE y = false := by
        obtain ⟨y, hy, hny⟩ := h
        rcases List.mem_cons.mp hy with rfl | hmem
        · simp [isOkE] at hny
        · exact ⟨y, hmem, hny⟩
      obtain ⟨e, he, hmem⟩ := ih hxs
      refine ⟨e, ?_, List.mem_cons_of_mem _ hmem⟩
      simp only [promiseAll, he]

/-- Claim C7, amended: in variant B, when the catalog fetch or any registry
fetch in the concurrent batch fails, the whole matchDependencies operation
fails with one of the underlying errors, propagated as is (no partial result
and no added wrapping context; the failure surfaced is the first one in the
Promise.all batch order). -/
theorem matchDependencies_first_failure (pj : PackageJson)
    (names : List String) (fd : Except String (List (String × String)))
    (fn : String → Except String (List String))
    (hd : packageParser.dependencies pj = .ok names)
    (hfail : isOkE fd = false ∨
      ∃ n ∈ names, isOkE (fn (packageParser.depURL n)) = false) :
    ∃ e, (packageParser.matchDependencies pj fd fn).fst = .error e ∧
      (fd = .error e ∨
        ∃ n ∈ names, fn (packageParser.depURL n) = .error e) := by
  unfold packageParser.matchDependencies
  rw [hd]
  cases fd with
  | error e => exact ⟨e, rfl, Or.inl rfl⟩
  | ok cat =>
    have hfail2 : ∃ n ∈ names, isOkE (fn (packageParser.depURL n)) = false := by
      rcases hfail with h | h
      · simp [isOkE] at h
      · exact h
    have hex : ∃ x ∈ (names.map packageParser.depURL).map fn,
        isOkE x = false := by
      obtain ⟨n, hn, hb⟩ := hfail2
      exact ⟨fn (packageParser.depURL n),
        List.mem_map_of_mem fn (List.mem_map_of_mem packageParser.depURL hn), hb⟩
    obtain ⟨e, he, hmem⟩ := promiseAll_error_of_mem _ hex
    refine ⟨e, by simp only [List.map_map] at he; simp [he], Or.inr ?_⟩
    rw [List.mem_map] at hmem
    obtain ⟨u, hu, hfu⟩ := hmem
    rw [List.mem_map] at hu
    obtain ⟨n, hn, rfl⟩ := hu
    exact ⟨n, hn, hfu⟩

/-- Witness for amended claim C7 at a concrete input. -/
theorem matchDependencies_first_failure_witness :
    ∃ e, (packageParser.matchDependencies ⟨some [("a", "1")], some []⟩ (.ok [])
        (fun _ => Except.error "boom")).fst = .error e ∧
      ((Except.ok [] : Except String (List (String × String))) = .error e ∨
        ∃ n ∈ ["a"],
          (fun _ => (Except.error "boom" : Except String (List String)))
            (packageParser.depURL n) = .error e) :=
  matchDependencies_first_failure ⟨some [("a", "1")], some []⟩ ["a"] (.ok [])
    (fun _ => Except.error "boom") rfl (Or.inr ⟨"a", by simp, rfl⟩)

theorem reverse_split_trailing (m : List Char) :
    m = (m.reverse.dropWhile isWS).reverse ++ (m.reverse.takeWhile isWS).reverse := by
  conv_lhs => rw [← List.reverse_reverse m]
  rw [← List.reverse_append, List.takeWhile_append_dropWhile]

/-- Claim C5, amended: the scraper splits the text on commas; a token holding
at least two non-whitespace characters (and no newline, the scope of the
model of the replace call) has exactly its leading and trailing whitespace
runs removed, with the interior kept verbatim (no internal whitespace
collapse); a token with fewer than two non-whitespace characters is returned
unchanged, because the trim pattern needs a non-whitespace anchor at each end
of its capture group; on the fixture sidebar text the scraper returns exactly
the eight trimmed tokens in order. -/
theorem parseDependencies_trim_behavior (t u : List Char)
    (h2 : 2 ≤ nonWSCount t) (hu : nonWSCount u < 2) :
    (∃ lead trail, lead.all isWS = true ∧ trail.all isWS = true ∧
        t = lead ++ jsTrimToken t ++ trail) ∧
      jsTrimToken u = u ∧
      packageParser.parseDependencies
          (some "object relational mapper, nodejs, orm, mssql, postgres, postgresql, sqlite, mysql") =
        ["object relational mapper", "nodejs", "orm", "mssql", "postgres",
          "postgresql", "sqlite", "mysql"] := by
  refine ⟨⟨t.takeWhile isWS, ((t.dropWhile isWS).reverse.takeWhile isWS).reverse,
    List.all_takeWhile, ?_, ?_⟩, ?_, ?_⟩
  · rw [List.all_reverse]
    exact List.all_takeWhile
  · simp only [jsTrimToken, dropTrailingWS]
    rw [if_pos h2, List.append_assoc]
    conv_lhs => rw [← List.takeWhile_append_dropWhile (p := isWS) (l := t)]
    exact congrArg _ (reverse_split_trailing (t.dropWhile isWS))
  · simp only [jsTrimToken]
    rw [if_neg (by omega)]
  · rfl

/-- Witness for amended claim C5 at concrete tokens: a two-letter token with
surrounding spaces is trimmed, a one-letter token with a leading space is
returned unchanged. -/
theorem parseDependencies_trim_behavior_witness :
    (∃ lead trail, lead.all isWS = true ∧ trail.all isWS = true ∧
        " ab ".toList = lead ++ jsTrimToken " ab ".toList ++ trail) ∧
      jsTrimToken " a".toList = " a".toList ∧
      packageParser.parseDependencies
          (some "object relational mapper, nodejs, orm, mssql, postgres, postgresql, sqlite, mysql") =
        ["object relational mapper", "nodejs", "orm", "mssql", "postgres",
          "postgresql", "sqlite", "mysql"] :=
  parseDependencies_trim_behavior " ab ".toList " a".toList (by decide)
    (by decide)

/-- Claim C2: in variant A, for every input on which the manifest read
succeeds, matchDependencies never resolves to a match result: the const
dockerPromises is referenced outside the try-block scope declaring it, so
every control path rejects with an error wrapped by ERR_URL_PARSE. -/
theorem matchDependenciesA_always_rejects (pj : PackageJson)
    (names : List String) (fd : Except String (List (String × String)))
    (fn : String → Except String (List String))
    (hd : packageParser.dependencies pj = .ok names) :
    ∃ e, packageParser.matchDependenciesA pj fd fn =
      .error (packageParser.wrapNpmErr e) := by
  unfold packageParser.matchDependenciesA
  rw [hd]
  cases hfd : packageParser.fetchDockersOfA fd with
  | error e => exact ⟨e, by simp [hfd]⟩
  | ok c =>
    cases hpa : promiseAll (names.map
        (packageParser.fetchNPMofA fn ∘ packageParser.depURL)) with
    | error e => exact ⟨e, by simp [hfd, List.map_map, hpa]⟩
    | ok vs =>
      exact ⟨packageParser.dockerPromisesRefErrorMsg,
        by simp [hfd, List.map_map, hpa]⟩

/-- Witness for claim C2 at a concrete input. -/
theorem matchDependenciesA_always_rejects_witness :
    ∃ e, packageParser.matchDependenciesA ⟨some [], some []⟩ (.ok [])
        (fun _ => .ok []) = .error (packageParser.wrapNpmErr e) :=
  matchDependenciesA_always_rejects ⟨some [], some []⟩ [] (.ok [])
    (fun _ => .ok []) rfl

end PleatedSlacks
